import Mathlib

/-!
Verification of the serial telemetry bridge (src/main.rs) against its
specification.  Strings from the wire are modelled as `List Char`; the Rust
string primitives used by the program (`split`, `strip_prefix`,
`strip_suffix`, `trim`, numeric `parse`) are embedded below with the same
semantics, and `f32` values are modelled exactly (finite values as rationals,
infinities and NaN as their own constructors) since no claim depends on
binary rounding.
-/

namespace Danube

/-- Rust `char::is_whitespace`: the Unicode `White_Space` code points. -/
def rustIsWhitespace (c : Char) : Bool :=
  c.toNat == 9 || c.toNat == 10 || c.toNat == 11 || c.toNat == 12 ||
  c.toNat == 13 || c.toNat == 32 || c.toNat == 133 || c.toNat == 160 ||
  c.toNat == 5760 || c.toNat == 8192 || c.toNat == 8193 || c.toNat == 8194 ||
  c.toNat == 8195 || c.toNat == 8196 || c.toNat == 8197 || c.toNat == 8198 ||
  c.toNat == 8199 || c.toNat == 8200 || c.toNat == 8201 || c.toNat == 8202 ||
  c.toNat == 8232 || c.toNat == 8233 || c.toNat == 8239 || c.toNat == 8287 ||
  c.toNat == 12288

/-- Rust `str::trim`: drop whitespace from both ends. -/
def rustTrim (s : List Char) : List Char :=
  ((s.dropWhile rustIsWhitespace).reverse.dropWhile rustIsWhitespace).reverse

/-- Rust `str::split(" | ")`, specialised to the three-character delimiter the
program uses: split at every leftmost non-overlapping occurrence of
space-pipe-space. -/
def splitBar : List Char → List (List Char)
  | ' ' :: '|' :: ' ' :: rest => [] :: splitBar rest
  | c :: rest =>
    match splitBar rest with
    | [] => [[c]]
    | g :: gs => (c :: g) :: gs
  | [] => [[]]

/-- Rust `str::split(sep)` for a one-character separator. -/
def splitChar (sep : Char) : List Char → List (List Char)
  | [] => [[]]
  | c :: rest =>
    if c = sep then [] :: splitChar sep rest
    else
      match splitChar sep rest with
      | [] => [[c]]
      | g :: gs => (c :: g) :: gs

/-- Rust `str::strip_prefix`: the remainder after the given leading text, or
failure. -/
def stripPre : List Char → List Char → Option (List Char)
  | [], s => some s
  | _ :: _, [] => none
  | p :: ps, c :: cs => if p = c then stripPre ps cs else none

/-- Rust `str::strip_suffix`: the remainder before the given trailing text, or
failure. -/
def stripSuf (suf s : List Char) : Option (List Char) :=
  match stripPre suf.reverse s.reverse with
  | some r => some r.reverse
  | none => none

/-- The numeric value of an ASCII decimal digit. -/
def digitVal (c : Char) : Option Nat :=
  if '0' ≤ c ∧ c ≤ '9' then some (c.toNat - 48) else none

/-- Accumulate the value of a run of decimal digits; fails on any non-digit
character, and yields the accumulator on the empty run. -/
def digitsVal : Nat → List Char → Option Nat
  | acc, [] => some acc
  | acc, c :: cs =>
    match digitVal c with
    | some d => digitsVal (10 * acc + d) cs
    | none => none

/-- The value of a non-empty all-digit string. -/
def decDigits : List Char → Option Nat
  | [] => none
  | c :: cs => digitsVal 0 (c :: cs)

/-- Rust `u64::from_str`: an optional leading plus sign, then at least one
ASCII digit; a value of 2^64 or more is an overflow error. -/
def parseU64 (s : List Char) : Option Nat :=
  let body := match s with
    | '+' :: r => r
    | _ => s
  match decDigits body with
  | some n => if n < 2 ^ 64 then some n else none
  | none => none

/-- Model of an `f32` value as produced by Rust `f32::from_str`: finite
values are kept as exact rationals (no claim depends on binary rounding or
on overflow to infinity), and the special values are distinguished
constructors. -/
inductive F32 where
  | finite (q : Rat)
  | inf
  | neginf
  | nan
deriving DecidableEq

/-- Split a numeric body at the first exponent marker `e`/`E`:
(mantissa text, exponent text when a marker is present). -/
def breakExp : List Char → List Char × Option (List Char)
  | [] => ([], none)
  | c :: rest =>
    if c = 'e' ∨ c = 'E' then ([], some rest)
    else
      let p := breakExp rest
      (c :: p.1, p.2)

/-- The exponent of a float literal: an optional sign then at least one
digit. -/
def parseExpVal (s : List Char) : Option Int :=
  match s with
  | '+' :: r => (decDigits r).map (fun n => (n : Int))
  | '-' :: r => (decDigits r).map (fun n => -(n : Int))
  | _ => (decDigits s).map (fun n => (n : Int))

/-- The mantissa of a float literal as an exact pair (numerator, positive
power-of-ten denominator): digits, or digits around a single dot with at
least one digit present. -/
def mantissaParts (m : List Char) : Option (Nat × Nat) :=
  match splitChar '.' m with
  | [i] => (decDigits i).map (fun n => (n, 1))
  | [i, f] =>
    if i.isEmpty ∧ f.isEmpty then none
    else
      match digitsVal 0 i, digitsVal 0 f with
      | some iv, some fv => some (iv * 10 ^ f.length + fv, 10 ^ f.length)
      | _, _ => none
  | _ => none

/-- The exact rational `±(num/den) * 10^e`, built with a single `mkRat` so
that it computes by kernel reduction. -/
def sciVal (neg : Bool) (num den : Nat) (e : Int) : Rat :=
  let n : Int := if neg then -(num : Int) else (num : Int)
  match e with
  | .ofNat k => mkRat (n * ((10 ^ k : Nat) : Int)) den
  | .negSucc k => mkRat n (den * 10 ^ (k + 1))

/-- A float body with its sign already consumed: `inf`, `infinity` or `nan`
in any casing, or a decimal number with optional fraction and exponent. -/
def parseF32Body (neg : Bool) (s : List Char) : Option F32 :=
  let low := s.map Char.toLower
  if low = ['i', 'n', 'f'] ∨ low = ['i', 'n', 'f', 'i', 'n', 'i', 't', 'y'] then
    some (if neg then F32.neginf else F32.inf)
  else if low = ['n', 'a', 'n'] then some F32.nan
  else
    let p := breakExp s
    let ex : Option Int := match p.2 with
      | none => some 0
      | some etext => parseExpVal etext
    match mantissaParts p.1, ex with
    | some mp, some e => some (F32.finite (sciVal neg mp.1 mp.2 e))
    | _, _ => none

/-- Rust `f32::from_str`: an optional sign, then a float body. -/
def parseF32 (s : List Char) : Option F32 :=
  match s with
  | '+' :: r => parseF32Body false r
  | '-' :: r => parseF32Body true r
  | _ => parseF32Body false s

/-- The telemetry structure matching the Arduino telemetry format
(src/main.rs:17-24).  `timestamp` is the u64 counter, `arming` is the
arming-sense voltage, `solenoids` the per-channel booleans. -/
structure Telemetry where
  timestamp : Nat
  armed : Bool
  battery : F32
  arming : F32
  solenoids : List Bool
deriving DecidableEq

/-- `impl Default for Telemetry` (src/main.rs:26-36). -/
def Telemetry.default : Telemetry :=
  { timestamp := 0, armed := false, battery := F32.finite 0,
    arming := F32.finite 0, solenoids := List.replicate 16 false }

def tsTag : List Char := ['T', 'S', ':']

def armTag : List Char := ['A', 'R', 'M', ':']

def battTag : List Char := ['B', 'A', 'T', 'T', ':']

def senseTag : List Char := ['A', 'R', 'M', '_', 'S', 'E', 'N', 'S', 'E', ':']

def solTag : List Char := ['S', 'O', 'L', ':']

def vTag : List Char := ['V']

def onTok : List Char := ['O', 'N']

def offTok : List Char := ['O', 'F', 'F']

/-- The ARM token match of src/main.rs:206-210: exactly "1" or "0". -/
def armTokVal : List Char → Option Bool
  | ['1'] => some true
  | ['0'] => some false
  | _ => none

/-- The state-token match of src/main.rs:232-236: exactly `ON` or `OFF`. -/
def onOffVal : List Char → Option Bool
  | ['O', 'N'] => some true
  | ['O', 'F', 'F'] => some false
  | _ => none

/-- One SOL entry (src/main.rs:226-238): split on the colon, require exactly
two parts, trim the second and map `ON`/`OFF`; the first part (the textual
channel index) is never inspected. -/
def parseSolEntry (entry : List Char) : Option Bool :=
  match splitChar ':' entry with
  | [_, s] => onOffVal (rustTrim s)
  | _ => none

/-- The solenoid for-loop of src/main.rs:225-238: entries decoded in order,
the first bad entry rejecting the whole line. -/
def parseSolList : List (List Char) → Option (List Bool)
  | [] => some []
  | e :: es =>
    match parseSolEntry e, parseSolList es with
    | some b, some bs => some (b :: bs)
    | _, _ => none

/-- `parse_telemetry_line` (src/main.rs:196-246).  Split on " | " into exactly
five fields; strip the literal prefixes (and the trailing `V` of the two
voltages); parse the numeric payloads; decode the ARM token; split the SOL
payload on commas into exactly 16 entries and decode each.  Any failure
rejects the whole line. -/
def parse_telemetry_line (line : List Char) : Option Telemetry :=
  match splitBar line with
  | [p0, p1, p2, p3, p4] =>
    match stripPre tsTag p0 with
    | none => none
    | some tsPart =>
      match parseU64 tsPart with
      | none => none
      | some timestamp =>
        match stripPre armTag p1 with
        | none => none
        | some armPart =>
          match armTokVal armPart with
          | none => none
          | some armed =>
            match stripPre battTag p2 with
            | none => none
            | some battPart =>
              match stripSuf vTag battPart with
              | none => none
              | some battStr =>
                match parseF32 battStr with
                | none => none
                | some battery =>
                  match stripPre senseTag p3 with
                  | none => none
                  | some armingPart =>
                    match stripSuf vTag armingPart with
                    | none => none
                    | some armingStr =>
                      match parseF32 armingStr with
                      | none => none
                      | some arming =>
                        match stripPre solTag p4 with
                        | none => none
                        | some solPart =>
                          if (splitChar ',' solPart).length ≠ 16 then none
                          else
                            match parseSolList (splitChar ',' solPart) with
                            | none => none
                            | some solenoids =>
                              some { timestamp, armed, battery, arming,
                                     solenoids }
  | _ => none

/-- Outcome of running a piece of Rust code that can return a value, bail out
with `None`, or panic. -/
inductive PResult (α : Type) where
  | ok (val : α)
  | reject
  | panic
deriving DecidableEq

/-- Lift an `Option`-valued step: `None` bails out, never panics. -/
def PResult.ofOption : Option α → PResult α
  | some a => .ok a
  | none => .reject

def PResult.isPanic : PResult α → Bool
  | .panic => true
  | _ => false

/-- Sequencing: a panic or a bail-out propagates. -/
def PResult.bind : PResult α → (α → PResult β) → PResult β
  | .ok a, f => f a
  | .reject, _ => .reject
  | .panic, _ => .panic

/-- Rust `Vec` indexing `v[i]`: panics when out of bounds. -/
def vecIdx (l : List α) (i : Nat) : PResult α :=
  match l[i]? with
  | some a => .ok a
  | none => .panic

/-- The solenoid loop of src/main.rs:226-238 with panics explicit: the length
guard on `subparts` precedes the `subparts[1]` indexing. -/
def parseSolListP : List (List Char) → PResult (List Bool)
  | [] => .ok []
  | e :: es =>
    if (splitChar ':' e).length ≠ 2 then .reject
    else
      PResult.bind (vecIdx (splitChar ':' e) 1) fun s =>
      PResult.bind (PResult.ofOption (onOffVal (rustTrim s))) fun b =>
      PResult.bind (parseSolListP es) fun bs =>
      .ok (b :: bs)

/-- `parse_telemetry_line` with Rust panics explicit: the `parts.len() != 5`
guard precedes every `parts[i]` indexing, exactly as in src/main.rs:196-246. -/
def parse_telemetry_lineP (line : List Char) : PResult Telemetry :=
  if (splitBar line).length ≠ 5 then .reject
  else
    PResult.bind (vecIdx (splitBar line) 0) fun p0 =>
    PResult.bind (PResult.ofOption (stripPre tsTag p0)) fun tsPart =>
    PResult.bind (PResult.ofOption (parseU64 tsPart)) fun timestamp =>
    PResult.bind (vecIdx (splitBar line) 1) fun p1 =>
    PResult.bind (PResult.ofOption (stripPre armTag p1)) fun armPart =>
    PResult.bind (PResult.ofOption (armTokVal armPart)) fun armed =>
    PResult.bind (vecIdx (splitBar line) 2) fun p2 =>
    PResult.bind (PResult.ofOption (stripPre battTag p2)) fun battPart =>
    PResult.bind (PResult.ofOption (stripSuf vTag battPart)) fun battStr =>
    PResult.bind (PResult.ofOption (parseF32 battStr)) fun battery =>
    PResult.bind (vecIdx (splitBar line) 3) fun p3 =>
    PResult.bind (PResult.ofOption (stripPre senseTag p3)) fun armingPart =>
    PResult.bind (PResult.ofOption (stripSuf vTag armingPart)) fun armingStr =>
    PResult.bind (PResult.ofOption (parseF32 armingStr)) fun arming =>
    PResult.bind (vecIdx (splitBar line) 4) fun p4 =>
    PResult.bind (PResult.ofOption (stripPre solTag p4)) fun solPart =>
    if (splitChar ',' solPart).length ≠ 16 then .reject
    else
      PResult.bind (parseSolListP (splitChar ',' solPart)) fun solenoids =>
      .ok { timestamp, armed, battery, arming, solenoids }

/-- The decimal rendering of a natural number (Rust display formatting),
driven by fuel so that it computes by kernel reduction. -/
def natDecCore : Nat → Nat → List Char → List Char
  | 0, _, acc => acc
  | fuel + 1, n, acc =>
    if n < 10 then Char.ofNat (48 + n) :: acc
    else natDecCore fuel (n / 10) (Char.ofNat (48 + n % 10) :: acc)

def natDec (n : Nat) : List Char := natDecCore (n + 1) n []

/-- `POST /solenoid/<channel>/<sstate>` (src/main.rs:72-81): validate the
channel (1..16) and state (0 or 1), then send the wire token
`s<channel><state>` to the command queue.  `none` models the rejection branch
returning "Invalid parameters": nothing is submitted to the queue. -/
def solenoid (channel sstate : Nat) : Option (List Char) :=
  if channel < 1 ∨ channel > 16 ∨ (sstate ≠ 0 ∧ sstate ≠ 1) then none
  else some ('s' :: (natDec channel ++ natDec sstate))

/-- Effect of one serial-loop iteration on the shared telemetry cell
(src/main.rs:281-294): a read line, when one arrived, is trimmed and parsed;
a successful parse replaces the stored record and anything else leaves it
unchanged.  `none` models a read that yielded no complete line. -/
def serialIterState (st : Telemetry) (readLine : Option (List Char)) : Telemetry :=
  match readLine with
  | some l =>
    match parse_telemetry_line (rustTrim l) with
    | some t => t
    | none => st
  | none => st

/-- One full loop iteration (src/main.rs:273-296): the drained commands are
each written to the port with a trailing newline, and the shared record is
updated from the read result.  Port writes never touch the record. -/
def serialIteration (st : Telemetry) (cmds : List (List Char))
    (readLine : Option (List Char)) : Telemetry × List (List Char) :=
  (serialIterState st readLine, cmds.map (fun c => c ++ ['\n']))

/-- `spawn_serial_loop` (src/main.rs:251-297) as its effect on the shared
record: a failed port open (src/main.rs:255-261) or a failed clone
(src/main.rs:264-270) returns before the loop ever runs, leaving the record
untouched; otherwise the loop folds `serialIterState` over the successive
read results. -/
def spawn_serial_loop (openOk cloneOk : Bool) (reads : List (Option (List Char)))
    (st : Telemetry) : Telemetry :=
  if openOk then
    if cloneOk then reads.foldl serialIterState st
    else st
  else st

/-- `GET /telemetry` (src/main.rs:50-54): lock the cell, clone the record,
return the copy.  In this value-level model the clone is the value itself. -/
def get_telemetry (st : Telemetry) : Telemetry := st

/-- An operation on the shared record cell: the serial loop's write, or a
reader's lock-clone-unlock. -/
inductive StoreOp where
  | write (r : Telemetry)
  | read

/-- A write replaces the cell (src/main.rs:287); a read leaves it unchanged
(src/main.rs:52). -/
def storeStep (st : Telemetry) : StoreOp → Telemetry
  | .write r => r
  | .read => st

def runStore (st : Telemetry) (ops : List StoreOp) : Telemetry :=
  ops.foldl storeStep st

/-- Modelled from the spec (failure policy of §4.1, strict reading): a SOL
entry is well formed when it splits at the colon into an index and a state
token that is exactly `ON` or exactly `OFF`. -/
def solEntryStrict (e : List Char) : Bool :=
  match splitChar ':' e with
  | [_, s] => s == onTok || s == offTok
  | _ => false

/-- A SOL entry whose state token is `ON` or `OFF` once surrounding
whitespace is trimmed — the acceptance the code actually implements. -/
def solEntryTrim (e : List Char) : Bool :=
  match splitChar ':' e with
  | [_, s] => rustTrim s == onTok || rustTrim s == offTok
  | _ => false

/-- The boolean payload of a strict SOL entry: `ON` maps to true. -/
def solEntryVal (e : List Char) : Bool :=
  match splitChar ':' e with
  | [_, s] => s == onTok
  | _ => false

/-- The trimmed state token of an entry compared with `ON`: the value the
code assigns to the entry's position. -/
def entryIsOnTrim (e : List Char) : Bool :=
  match splitChar ':' e with
  | [_, s] => rustTrim s == onTok
  | _ => false

/-- The state component of a SOL entry (the text after the colon), `none`
when the entry does not split into exactly two parts. -/
def solStateTok (e : List Char) : Option (List Char) :=
  match splitChar ':' e with
  | [_, s] => some s
  | _ => none

/-- Modelled from the spec, §4.1: the timestamp field is `TS:` followed by a
numeric u64 payload. -/
def tsFieldOk (f : List Char) : Bool :=
  match stripPre tsTag f with
  | some t => (parseU64 t).isSome
  | none => false

/-- Modelled from the spec, §4.1: the arm field is `ARM:` followed by exactly
`1` or `0`. -/
def armFieldOk (f : List Char) : Bool :=
  match stripPre armTag f with
  | some a => a == ['1'] || a == ['0']
  | none => false

/-- Modelled from the spec, §4.1: a voltage field is its literal tag, a
numeric float payload, and the required trailing `V`. -/
def voltFieldOk (tag : List Char) (f : List Char) : Bool :=
  match stripPre tag f with
  | some b =>
    match stripSuf vTag b with
    | some v => (parseF32 v).isSome
    | none => false
  | none => false

/-- Modelled from the spec, §4.1: the solenoid field is `SOL:` followed by
exactly 16 comma-separated entries, each acceptable per `entryOk`. -/
def solFieldOk (entryOk : List Char → Bool) (f : List Char) : Bool :=
  match stripPre solTag f with
  | some sp =>
    let es := splitChar ',' sp
    es.length == 16 && es.all entryOk
  | none => false

/-- Modelled from the spec, §4.1: a line conforms to the telemetry grammar
when it has exactly five " | "-separated fields, each well formed.
`entryOk` fixes the reading of SOL entries (strict or trimmed). -/
def lineOk (entryOk : List Char → Bool) (line : List Char) : Bool :=
  match splitBar line with
  | [f0, f1, f2, f3, f4] =>
    tsFieldOk f0 && armFieldOk f1 && voltFieldOk battTag f2 &&
    voltFieldOk senseTag f3 && solFieldOk entryOk f4
  | _ => false

/-- The end-to-end example line of the spec (scenario 1). -/
def exLine : List Char :=
  ("TS:100 | ARM:1 | BATT:11.5V | ARM_SENSE:2.3V | SOL:1:ON,2:OFF,3:OFF,4:OFF,5:OFF,6:OFF,7:OFF,8:OFF,9:OFF,10:OFF,11:OFF,12:OFF,13:OFF,14:OFF,15:OFF,16:OFF").data

/-- The record scenario 1 expects: timestamp 100, armed, battery 11.5,
arming sense 2.3, solenoid 1 on. -/
def exRec : Telemetry :=
  { timestamp := 100, armed := true, battery := F32.finite (mkRat 23 2),
    arming := F32.finite (mkRat 23 10),
    solenoids := true :: List.replicate 15 false }

/-- A line whose first SOL entry is `1: ON` — its state token carries a
leading space, so it deviates from the strict grammar. -/
def c1Line : List Char :=
  ("TS:1 | ARM:0 | BATT:1V | ARM_SENSE:1V | SOL:1: ON,2:OFF,3:OFF,4:OFF,5:OFF,6:OFF,7:OFF,8:OFF,9:OFF,10:OFF,11:OFF,12:OFF,13:OFF,14:OFF,15:OFF,16:OFF").data

/-- The example line with the channel-index texts reversed (16 down to 1)
but the same state tokens in the same positions. -/
def c4Line : List Char :=
  ("TS:100 | ARM:1 | BATT:11.5V | ARM_SENSE:2.3V | SOL:16:ON,15:OFF,14:OFF,13:OFF,12:OFF,11:OFF,10:OFF,9:OFF,8:OFF,7:OFF,6:OFF,5:OFF,4:OFF,3:OFF,2:OFF,1:OFF").data

theorem rustTrim_onTok : rustTrim onTok = onTok := by decide

theorem rustTrim_offTok : rustTrim offTok = offTok := by decide

/-- A solenoid entry's decode depends only on its state component. -/
theorem parseSolEntry_eq_state (e : List Char) :
    parseSolEntry e = (solStateTok e).bind (fun s => onOffVal (rustTrim s)) := by
  unfold parseSolEntry solStateTok
  rcases h : splitChar ':' e with _ | ⟨a, _ | ⟨b, _ | ⟨c, t⟩⟩⟩ <;> simp

theorem parseSolList_congr (e1 e2 : List (List Char))
    (h : e1.map solStateTok = e2.map solStateTok) :
    parseSolList e1 = parseSolList e2 := by
  induction e1 generalizing e2 with
  | nil => cases e2 with
    | nil => rfl
    | cons b bs => simp at h
  | cons a as ih =>
    cases e2 with
    | nil => simp at h
    | cons b bs =>
      simp only [List.map_cons, List.cons.injEq] at h
      unfold parseSolList
      rw [parseSolEntry_eq_state a, parseSolEntry_eq_state b, h.1, ih bs h.2]

theorem parseSolList_length (es : List (List Char)) (bs : List Bool)
    (h : parseSolList es = some bs) : bs.length = es.length := by
  induction es generalizing bs with
  | nil => unfold parseSolList at h; cases h; rfl
  | cons e es ih =>
    unfold parseSolList at h
    cases he : parseSolEntry e with
    | none => rw [he] at h; simp at h
    | some b =>
      rw [he] at h
      cases ht : parseSolList es with
      | none => rw [ht] at h; simp at h
      | some tl =>
        rw [ht] at h
        simp only [Option.some.injEq] at h
        subst h
        simp [ih tl ht]

theorem parseSolEntry_some_trim (e : List Char) (b : Bool)
    (h : parseSolEntry e = some b) : solEntryTrim e = true := by
  unfold parseSolEntry at h
  unfold solEntryTrim
  rcases hs : splitChar ':' e with _ | ⟨a, _ | ⟨s, _ | ⟨c, t⟩⟩⟩ <;> rw [hs] at h <;> simp at h
  unfold onOffVal at h
  split at h <;> simp_all [onTok, offTok]

theorem parseSolEntry_some_val (e : List Char) (b : Bool)
    (h : parseSolEntry e = some b) : b = entryIsOnTrim e := by
  unfold parseSolEntry at h
  unfold entryIsOnTrim
  rcases hs : splitChar ':' e with _ | ⟨a, _ | ⟨s, _ | ⟨c, t⟩⟩⟩ <;> rw [hs] at h <;> simp at h
  unfold onOffVal at h
  split at h <;> simp_all [onTok]

theorem parseSolList_all_trim (es : List (List Char)) (bs : List Bool)
    (h : parseSolList es = some bs) : es.all solEntryTrim = true := by
  induction es generalizing bs with
  | nil => rfl
  | cons e es ih =>
    unfold parseSolList at h
    cases he : parseSolEntry e with
    | none => rw [he] at h; simp at h
    | some b =>
      rw [he] at h
      cases ht : parseSolList es with
      | none => rw [ht] at h; simp at h
      | some tl =>
        simp [List.all_cons, parseSolEntry_some_trim e b he, ih tl ht]

theorem solEntryStrict_entry (e : List Char) (h : solEntryStrict e = true) :
    parseSolEntry e = some (solEntryVal e) := by
  unfold solEntryStrict at h
  unfold parseSolEntry solEntryVal
  rcases hs : splitChar ':' e with _ | ⟨a, _ | ⟨s, _ | ⟨c, t⟩⟩⟩ <;> rw [hs] at h <;> simp_all
  rcases h with h | h <;> subst h <;> decide

theorem parseSolList_strict (es : List (List Char))
    (h : ∀ e ∈ es, solEntryStrict e = true) :
    parseSolList es = some (es.map solEntryVal) := by
  induction es with
  | nil => rfl
  | cons e es ih =>
    unfold parseSolList
    rw [solEntryStrict_entry e (h e (by simp)), ih (fun x hx => h x (by simp [hx]))]
    simp

theorem parseSolList_getD (es : List (List Char)) (bs : List Bool)
    (h : parseSolList es = some bs) :
    ∀ k, k < es.length → bs.getD k false = entryIsOnTrim (es.getD k []) := by
  induction es generalizing bs with
  | nil => intro k hk; simp at hk
  | cons e es ih =>
    unfold parseSolList at h
    cases he : parseSolEntry e with
    | none => rw [he] at h; simp at h
    | some b =>
      rw [he] at h
      cases ht : parseSolList es with
      | none => rw [ht] at h; simp at h
      | some tl =>
        rw [ht] at h
        simp only [Option.some.injEq] at h
        subst h
        intro k hk
        cases k with
        | zero => simpa using parseSolEntry_some_val e b he
        | succ k =>
          simp only [List.getD_cons_succ]
          exact ih tl ht k (by simpa using hk)

/-- Inversion of a successful parse: the five fields and every intermediate
value the parser committed to. -/
theorem parse_some_inv (line : List Char) (r : Telemetry)
    (h : parse_telemetry_line line = some r) :
    ∃ p0 p1 p2 p3 p4 tsS armS battS battN senseS senseN solS,
      splitBar line = [p0, p1, p2, p3, p4] ∧
      stripPre tsTag p0 = some tsS ∧ parseU64 tsS = some r.timestamp ∧
      stripPre armTag p1 = some armS ∧ armTokVal armS = some r.armed ∧
      stripPre battTag p2 = some battS ∧ stripSuf vTag battS = some battN ∧
      parseF32 battN = some r.battery ∧
      stripPre senseTag p3 = some senseS ∧ stripSuf vTag senseS = some senseN ∧
      parseF32 senseN = some r.arming ∧
      stripPre solTag p4 = some solS ∧ (splitChar ',' solS).length = 16 ∧
      parseSolList (splitChar ',' solS) = some r.solenoids := by
  unfold parse_telemetry_line at h
  split at h
  case _ p0 p1 p2 p3 p4 hsp =>
    split at h
    case _ => exact absurd h (by simp)
    case _ tsS hts =>
      split at h
      case _ => exact absurd h (by simp)
      case _ n hn =>
        split at h
        case _ => exact absurd h (by simp)
        case _ armS harm =>
          split at h
          case _ => exact absurd h (by simp)
          case _ armed harmv =>
            split at h
            case _ => exact absurd h (by simp)
            case _ battS hbs =>
              split at h
              case _ => exact absurd h (by simp)
              case _ battN hbn =>
                split at h
                case _ => exact absurd h (by simp)
                case _ bv hbv =>
                  split at h
                  case _ => exact absurd h (by simp)
                  case _ senseS hss =>
                    split at h
                    case _ => exact absurd h (by simp)
                    case _ senseN hsn =>
                      split at h
                      case _ => exact absurd h (by simp)
                      case _ sv hsv =>
                        split at h
                        case _ => exact absurd h (by simp)
                        case _ solS hsolp =>
                          split at h
                          case _ => exact absurd h (by simp)
                          case _ hlen =>
                            split at h
                            case _ => exact absurd h (by simp)
                            case _ sols hsols =>
                              simp only [Option.some.injEq] at h
                              subst h
                              exact ⟨p0, p1, p2, p3, p4, tsS, armS, battS,
                                battN, senseS, senseN, solS, hsp, hts, hn,
                                harm, harmv, hbs, hbn, hbv, hss, hsn, hsv,
                                hsolp, by omega, hsols⟩
  case _ => exact absurd h (by simp)

/-- Forward computation: a line decomposing per the grammar parses to exactly
the record assembled from its payloads. -/
theorem parse_of_fields (line : List Char)
    (p0 p1 p2 p3 p4 tsS armS battS battN senseS senseN solS : List Char)
    (n : Nat) (b : Bool) (bv sv : F32) (sols : List Bool)
    (hsp : splitBar line = [p0, p1, p2, p3, p4])
    (hts : stripPre tsTag p0 = some tsS) (hn : parseU64 tsS = some n)
    (harm : stripPre armTag p1 = some armS) (harmv : armTokVal armS = some b)
    (hbs : stripPre battTag p2 = some battS)
    (hbn : stripSuf vTag battS = some battN) (hbv : parseF32 battN = some bv)
    (hss : stripPre senseTag p3 = some senseS)
    (hsn : stripSuf vTag senseS = some senseN) (hsv : parseF32 senseN = some sv)
    (hsolp : stripPre solTag p4 = some solS)
    (hlen : (splitChar ',' solS).length = 16)
    (hsols : parseSolList (splitChar ',' solS) = some sols) :
    parse_telemetry_line line =
      some { timestamp := n, armed := b, battery := bv, arming := sv,
             solenoids := sols } := by
  unfold parse_telemetry_line
  rw [hsp]
  simp only [hts, hn, harm, harmv, hbs, hbn, hbv, hss, hsn, hsv, hsolp, hlen,
    hsols]
  simp

/-- A line the parser accepts satisfies the (trim-reading) grammar checker. -/
theorem parse_some_lineOk (line : List Char) (r : Telemetry)
    (h : parse_telemetry_line line = some r) :
    lineOk solEntryTrim line = true := by
  obtain ⟨p0, p1, p2, p3, p4, tsS, armS, battS, battN, senseS, senseN, solS,
    hsp, hts, hn, harm, harmv, hbs, hbn, hbv, hss, hsn, hsv, hsolp, hlen,
    hsols⟩ := parse_some_inv line r h
  have harmok : (armS == ['1'] || armS == ['0']) = true := by
    unfold armTokVal at harmv
    split at harmv <;> simp_all
  have hall := parseSolList_all_trim _ _ hsols
  unfold lineOk
  rw [hsp]
  simp [tsFieldOk, armFieldOk, voltFieldOk, solFieldOk, hts, hn, harm, hbs,
    hbn, hbv, hss, hsn, hsv, hsolp, hlen, harmok, hall]

/-- The explicit-panic solenoid loop agrees with the pure one and never
panics: the length-2 guard covers the `subparts[1]` indexing. -/
theorem parseSolListP_eq (es : List (List Char)) :
    parseSolListP es = PResult.ofOption (parseSolList es) := by
  induction es with
  | nil => rfl
  | cons e es ih =>
    unfold parseSolListP parseSolList parseSolEntry
    rcases hs : splitChar ':' e with _ | ⟨a, _ | ⟨s, _ | ⟨c, t⟩⟩⟩
    · simp [PResult.ofOption]
    · simp [PResult.ofOption]
    · simp only [List.length_cons, List.length_nil]
      rw [if_neg (by omega)]
      simp only [vecIdx, List.getElem?_cons_succ, List.getElem?_cons_zero,
        PResult.bind]
      cases hb : onOffVal (rustTrim s) with
      | none => simp [PResult.ofOption, PResult.bind]
      | some b =>
        simp only [PResult.ofOption, PResult.bind, ih]
        cases ht : parseSolList es with
        | none => simp [PResult.ofOption, PResult.bind]
        | some tl => simp [PResult.ofOption, PResult.bind]
    · simp only [List.length_cons]
      rw [if_pos (by omega)]
      simp [PResult.ofOption]

/-- The explicit-panic line parser agrees with the pure one: every `parts[i]`
indexing is covered by the five-field guard, so no input panics. -/
theorem parse_lineP_eq (line : List Char) :
    parse_telemetry_lineP line = PResult.ofOption (parse_telemetry_line line) := by
  unfold parse_telemetry_lineP parse_telemetry_line
  rcases hsp : splitBar line with _ | ⟨p0, _ | ⟨p1, _ | ⟨p2, _ | ⟨p3, _ | ⟨p4, _ | ⟨p5, t⟩⟩⟩⟩⟩⟩
  · simp [PResult.ofOption]
  · simp [PResult.ofOption]
  · simp [PResult.ofOption]
  · simp [PResult.ofOption]
  · simp [PResult.ofOption]
  · -- exactly five fields
    simp only [List.length_cons, List.length_nil]
    rw [if_neg (by omega)]
    simp only [vecIdx, List.getElem?_cons_succ, List.getElem?_cons_zero,
      PResult.bind]
    cases hts : stripPre tsTag p0 with
    | none => simp [PResult.ofOption, PResult.bind]
    | some tsS =>
    simp only [PResult.ofOption, PResult.bind]
    cases hn : parseU64 tsS with
    | none => simp [PResult.ofOption, PResult.bind]
    | some n =>
    simp only [PResult.ofOption, PResult.bind]
    cases harm : stripPre armTag p1 with
    | none => simp [PResult.ofOption, PResult.bind]
    | some armS =>
    simp only [PResult.ofOption, PResult.bind]
    cases harmv : armTokVal armS with
    | none => simp [PResult.ofOption, PResult.bind]
    | some b =>
    simp only [PResult.ofOption, PResult.bind]
    cases hbs : stripPre battTag p2 with
    | none => simp [PResult.ofOption, PResult.bind]
    | some battS =>
    simp only [PResult.ofOption, PResult.bind]
    cases hbn : stripSuf vTag battS with
    | none => simp [PResult.ofOption, PResult.bind]
    | some battN =>
    simp only [PResult.ofOption, PResult.bind]
    cases hbv : parseF32 battN with
    | none => simp [PResult.ofOption, PResult.bind]
    | some bv =>
    simp only [PResult.ofOption, PResult.bind]
    cases hss : stripPre senseTag p3 with
    | none => simp [PResult.ofOption, PResult.bind]
    | some senseS =>
    simp only [PResult.ofOption, PResult.bind]
    cases hsn : stripSuf vTag senseS with
    | none => simp [PResult.ofOption, PResult.bind]
    | some senseN =>
    simp only [PResult.ofOption, PResult.bind]
    cases hsv : parseF32 senseN with
    | none => simp [PResult.ofOption, PResult.bind]
    | some sv =>
    simp only [PResult.ofOption, PResult.bind]
    cases hsolp : stripPre solTag p4 with
    | none => simp [PResult.ofOption, PResult.bind]
    | some solPart =>
    simp only [PResult.ofOption, PResult.bind]
    by_cases hl : (splitChar ',' solPart).length = 16
    · rw [if_neg (fun hco => hco hl), if_neg (fun hco => hco hl),
        parseSolListP_eq]
      cases hsl : parseSolList (splitChar ',' solPart) with
      | none => simp [PResult.ofOption, PResult.bind]
      | some sols => simp [PResult.ofOption, PResult.bind]
    · rw [if_pos hl, if_pos hl]
  · -- six or more fields
    simp only [List.length_cons]
    rw [if_pos (by omega)]
    simp [PResult.ofOption]

theorem parse_lineP_no_panic (line : List Char) :
    (parse_telemetry_lineP line).isPanic = false := by
  rw [parse_lineP_eq]
  cases parse_telemetry_line line <;> rfl

theorem parse_sol_len (line : List Char) (r : Telemetry)
    (h : parse_telemetry_line line = some r) : r.solenoids.length = 16 := by
  obtain ⟨p0, p1, p2, p3, p4, tsS, armS, battS, battN, senseS, senseN, solS,
    hsp, hts, hn, harm, harmv, hbs, hbn, hbv, hss, hsn, hsv, hsolp, hlen,
    hsols⟩ := parse_some_inv line r h
  rw [parseSolList_length _ _ hsols, hlen]

theorem iter_sol_len (st : Telemetry) (rd : Option (List Char))
    (h16 : st.solenoids.length = 16) :
    (serialIterState st rd).solenoids.length = 16 := by
  cases rd with
  | none => exact h16
  | some l =>
    simp only [serialIterState]
    cases hp : parse_telemetry_line (rustTrim l) with
    | none => simpa using h16
    | some t => simpa using parse_sol_len _ _ hp

theorem loop_sol_len (reads : List (Option (List Char))) (st : Telemetry)
    (h16 : st.solenoids.length = 16) :
    (reads.foldl serialIterState st).solenoids.length = 16 := by
  induction reads generalizing st with
  | nil => exact h16
  | cons rd rds ih => exact ih _ (iter_sol_len st rd h16)

theorem runStore_reads (ops : List StoreOp)
    (h : ∀ op ∈ ops, op = StoreOp.read) (st : Telemetry) :
    runStore st ops = st := by
  induction ops with
  | nil => rfl
  | cons op ops ih =>
    have hop := h op (by simp)
    subst hop
    unfold runStore at ih ⊢
    simp only [List.foldl_cons]
    exact ih (fun x hx => h x (by simp [hx])) 

theorem solInjFin : ∀ c1 : Fin 17, ∀ s1 : Fin 2, ∀ c2 : Fin 17, ∀ s2 : Fin 2,
    1 ≤ c1.val → 1 ≤ c2.val → solenoid c1.val s1.val = solenoid c2.val s2.val →
    c1.val = c2.val ∧ s1.val = s2.val := by decide

theorem parse_congr_aux (l1 l2 f0 f1 f2 f3 g4 h4 sp1 sp2 : List Char)
    (r : Telemetry)
    (h1 : splitBar l1 = [f0, f1, f2, f3, g4])
    (h2 : splitBar l2 = [f0, f1, f2, f3, h4])
    (hg : stripPre solTag g4 = some sp1)
    (hh : stripPre solTag h4 = some sp2)
    (hmap : (splitChar ',' sp1).map solStateTok =
      (splitChar ',' sp2).map solStateTok)
    (hr : parse_telemetry_line l1 = some r) :
    parse_telemetry_line l2 = some r := by
  obtain ⟨p0, p1, p2, p3, p4, tsS, armS, battS, battN, senseS, senseN, solS,
    hsp, hts, hn, harm, harmv, hbs, hbn, hbv, hss, hsn, hsv, hsolp, hlen,
    hsols⟩ := parse_some_inv l1 r hr
  have he : [p0, p1, p2, p3, p4] = [f0, f1, f2, f3, g4] := by
    rw [← hsp, ← h1]
  simp only [List.cons.injEq, and_true] at he
  obtain ⟨e0, e1, e2, e3, e4⟩ := he
  subst e0; subst e1; subst e2; subst e3; subst e4
  have hsol1 : solS = sp1 := by
    rw [hsolp] at hg
    exact Option.some.inj hg
  subst hsol1
  have hlen2 : (splitChar ',' sp2).length = 16 := by
    have hc := congrArg List.length hmap
    simp only [List.length_map] at hc
    omega
  have hsols2 : parseSolList (splitChar ',' sp2) = some r.solenoids := by
    rw [← parseSolList_congr _ _ hmap]
    exact hsols
  exact parse_of_fields _ _ _ _ _ _ _ _ _ _ _ _ _ _ _ _ _ _ h2 hts hn harm
    harmv hbs hbn hbv hss hsn hsv hh hlen2 hsols2

/-- C1 counterexample: the line whose first SOL entry is `1: ON` deviates
from the grammar (its state token ` ON` is not exactly `ON`), yet
`parse_telemetry_line` accepts it, because the code trims the token before
matching (src/main.rs:232). -/
theorem c1_strict_refuted :
    lineOk solEntryStrict c1Line = false ∧
    parse_telemetry_line c1Line =
      some { timestamp := 1, armed := false, battery := F32.finite 1,
             arming := F32.finite 1,
             solenoids := true :: List.replicate 15 false } :=
  ⟨by decide, by decide⟩

/-- C1 (amended): any input line that deviates from the telemetry grammar —
wrong field count, missing or wrong literal prefix or suffix, non-numeric
timestamp or voltage payload, an ARM token other than exactly `1`/`0`, a
solenoid state token other than `ON`/`OFF` once surrounding whitespace is
trimmed, or a solenoid entry count other than 16 — is rejected by
`parse_telemetry_line` with no partial record produced. -/
theorem c1_malformed_rejected (line : List Char)
    (h : lineOk solEntryTrim line = false) :
    parse_telemetry_line line = none := by
  cases hp : parse_telemetry_line line with
  | none => rfl
  | some r => exact absurd (parse_some_lineOk line r hp) (by simp [h])

theorem c1_malformed_rejected_witness :
    parse_telemetry_line
      (String.data "TS:100 | ARM:1 | BATT:11.5V | ARM_SENSE:2.3V") = none :=
  c1_malformed_rejected _ (by decide)

/-- C2: the end-to-end example line parses to exactly the record of the
spec (timestamp 100, armed, battery 11.5, arming sense 2.3, solenoid 1 on);
and in general every line decomposing per the §4.1 grammar (five fields,
literal tags, numeric payloads, ARM token `1` or `0`, 16 strict SOL entries)
parses to the record assembled from its textual payloads: the numeric
values round-trip, `1` maps to true and `ON` maps to true positionally. -/
theorem c2_roundtrip :
    parse_telemetry_line exLine = some exRec ∧
    (∀ line p0 p1 p2 p3 p4 tsS armS battS battN senseS senseN solS
        (n : Nat) (b : Bool) (bv sv : F32),
      splitBar line = [p0, p1, p2, p3, p4] →
      stripPre tsTag p0 = some tsS → parseU64 tsS = some n →
      stripPre armTag p1 = some armS →
      ((armS = ['1'] ∧ b = true) ∨ (armS = ['0'] ∧ b = false)) →
      stripPre battTag p2 = some battS → stripSuf vTag battS = some battN →
      parseF32 battN = some bv →
      stripPre senseTag p3 = some senseS → stripSuf vTag senseS = some senseN →
      parseF32 senseN = some sv →
      stripPre solTag p4 = some solS → (splitChar ',' solS).length = 16 →
      (∀ e ∈ splitChar ',' solS, solEntryStrict e = true) →
      parse_telemetry_line line =
        some { timestamp := n, armed := b, battery := bv, arming := sv,
               solenoids := (splitChar ',' solS).map solEntryVal }) := by
  constructor
  · decide
  · intro line p0 p1 p2 p3 p4 tsS armS battS battN senseS senseN solS n b bv
      sv hsp hts hn harm harmv hbs hbn hbv hss hsn hsv hsolp hlen hstrict
    have hsols := parseSolList_strict (splitChar ',' solS) hstrict
    rcases harmv with ⟨ha, hb⟩ | ⟨ha, hb⟩ <;> subst ha <;> subst hb <;>
      exact parse_of_fields _ _ _ _ _ _ _ _ _ _ _ _ _ _ _ _ _ _ hsp hts hn
        harm rfl hbs hbn hbv hss hsn hsv hsolp hlen hsols

theorem c2_roundtrip_witness :
    parse_telemetry_line exLine =
      some { timestamp := 100, armed := true,
             battery := F32.finite (mkRat 23 2),
             arming := F32.finite (mkRat 23 10),
             solenoids :=
               (splitChar ','
                 (String.data "1:ON,2:OFF,3:OFF,4:OFF,5:OFF,6:OFF,7:OFF,8:OFF,9:OFF,10:OFF,11:OFF,12:OFF,13:OFF,14:OFF,15:OFF,16:OFF")).map
                 solEntryVal } :=
  c2_roundtrip.2 exLine
    (String.data "TS:100") (String.data "ARM:1") (String.data "BATT:11.5V")
    (String.data "ARM_SENSE:2.3V")
    (String.data "SOL:1:ON,2:OFF,3:OFF,4:OFF,5:OFF,6:OFF,7:OFF,8:OFF,9:OFF,10:OFF,11:OFF,12:OFF,13:OFF,14:OFF,15:OFF,16:OFF")
    (String.data "100") (String.data "1") (String.data "11.5V")
    (String.data "11.5") (String.data "2.3V") (String.data "2.3")
    (String.data "1:ON,2:OFF,3:OFF,4:OFF,5:OFF,6:OFF,7:OFF,8:OFF,9:OFF,10:OFF,11:OFF,12:OFF,13:OFF,14:OFF,15:OFF,16:OFF")
    100 true (F32.finite (mkRat 23 2)) (F32.finite (mkRat 23 10))
    (by decide) (by decide) (by decide) (by decide) (Or.inl ⟨rfl, rfl⟩)
    (by decide) (by decide) (by decide) (by decide) (by decide) (by decide)
    (by decide) (by decide) (by decide)

/-- C3: every record the parser returns has exactly 16 solenoid entries, the
default record has 16, and hence every record the shared store can ever hold
(its initial default, then any sequence of loop iterations) has 16. -/
theorem c3_sol_invariant :
    (∀ line r, parse_telemetry_line line = some r → r.solenoids.length = 16) ∧
    Telemetry.default.solenoids.length = 16 ∧
    (∀ openOk cloneOk reads,
      (spawn_serial_loop openOk cloneOk reads
        Telemetry.default).solenoids.length = 16) := by
  refine ⟨parse_sol_len, by decide, ?_⟩
  intro openOk cloneOk reads
  unfold spawn_serial_loop
  cases openOk with
  | false => simp [Telemetry.default]
  | true =>
    cases cloneOk with
    | false => simp [Telemetry.default]
    | true => simpa using loop_sol_len reads Telemetry.default (by decide)

theorem c3_sol_invariant_witness : exRec.solenoids.length = 16 :=
  c3_sol_invariant.1 exLine exRec (by decide)

/-- C4: solenoid entries are consumed strictly positionally — the decode of
an entry list depends only on the state components (the channel-index text
is neither validated nor used to reorder), position k of the result is the
trimmed ON/OFF token of entry k, and two accepted lines differing only in
their channel-index texts parse to equal records. -/
theorem c4_positional :
    (∀ e1 e2 : List (List Char), e1.map solStateTok = e2.map solStateTok →
      parseSolList e1 = parseSolList e2) ∧
    (∀ entries sols, parseSolList entries = some sols →
      ∀ k, k < entries.length →
        sols.getD k false = entryIsOnTrim (entries.getD k [])) ∧
    (∀ l1 l2 f0 f1 f2 f3 g4 h4 sp1 sp2 : List Char,
      splitBar l1 = [f0, f1, f2, f3, g4] →
      splitBar l2 = [f0, f1, f2, f3, h4] →
      stripPre solTag g4 = some sp1 → stripPre solTag h4 = some sp2 →
      (splitChar ',' sp1).map solStateTok =
        (splitChar ',' sp2).map solStateTok →
      parse_telemetry_line l1 = parse_telemetry_line l2) := by
  refine ⟨parseSolList_congr, parseSolList_getD, ?_⟩
  intro l1 l2 f0 f1 f2 f3 g4 h4 sp1 sp2 h1 h2 hg hh hmap
  cases hr1 : parse_telemetry_line l1 with
  | some r =>
    rw [parse_congr_aux l1 l2 f0 f1 f2 f3 g4 h4 sp1 sp2 r h1 h2 hg hh hmap hr1]
  | none =>
    cases hr2 : parse_telemetry_line l2 with
    | none => rfl
    | some r =>
      have hb := parse_congr_aux l2 l1 f0 f1 f2 f3 h4 g4 sp2 sp1 r h2 h1 hh hg
        hmap.symm hr2
      rw [hr1] at hb
      cases hb

theorem c4_positional_witness :
    parse_telemetry_line exLine = parse_telemetry_line c4Line :=
  c4_positional.2.2 exLine c4Line
    (String.data "TS:100") (String.data "ARM:1") (String.data "BATT:11.5V")
    (String.data "ARM_SENSE:2.3V")
    (String.data "SOL:1:ON,2:OFF,3:OFF,4:OFF,5:OFF,6:OFF,7:OFF,8:OFF,9:OFF,10:OFF,11:OFF,12:OFF,13:OFF,14:OFF,15:OFF,16:OFF")
    (String.data "SOL:16:ON,15:OFF,14:OFF,13:OFF,12:OFF,11:OFF,10:OFF,9:OFF,8:OFF,7:OFF,6:OFF,5:OFF,4:OFF,3:OFF,2:OFF,1:OFF")
    (String.data "1:ON,2:OFF,3:OFF,4:OFF,5:OFF,6:OFF,7:OFF,8:OFF,9:OFF,10:OFF,11:OFF,12:OFF,13:OFF,14:OFF,15:OFF,16:OFF")
    (String.data "16:ON,15:OFF,14:OFF,13:OFF,12:OFF,11:OFF,10:OFF,9:OFF,8:OFF,7:OFF,6:OFF,5:OFF,4:OFF,3:OFF,2:OFF,1:OFF")
    (by decide) (by decide) (by decide) (by decide) (by decide)

/-- C5: within the valid domain (channel 1..16, state 0 or 1) the endpoint
submits exactly the token `s<channel><state>` — in particular channel 5,
state 1 submits exactly `s51` — and outside that domain (for example
channel 17) it rejects at the boundary and submits nothing. -/
theorem c5_solenoid_boundary :
    solenoid 5 1 = some ['s', '5', '1'] ∧
    (∀ ch st : Nat, 1 ≤ ch → ch ≤ 16 → st ≤ 1 →
      solenoid ch st = some ('s' :: (natDec ch ++ natDec st))) ∧
    (∀ ch st : Nat, ch < 1 ∨ 16 < ch ∨ (st ≠ 0 ∧ st ≠ 1) →
      solenoid ch st = none) ∧
    solenoid 17 1 = none := by
  refine ⟨by decide, ?_, ?_, by decide⟩
  · intro ch st hc1 hc2 hs
    unfold solenoid
    rw [if_neg (by omega)]
  · intro ch st h
    unfold solenoid
    rw [if_pos (by omega)]

theorem c5_solenoid_boundary_witness :
    solenoid 16 0 = some ('s' :: (natDec 16 ++ natDec 0)) :=
  c5_solenoid_boundary.2.1 16 0 (by decide) (by decide) (by decide)

/-- C6: a loop iteration whose read yields no complete line, or whose line
the parser rejects, leaves the shared record exactly as it was. -/
theorem c6_no_mutation :
    (∀ st cmds, (serialIteration st cmds none).1 = st) ∧
    (∀ st cmds l, parse_telemetry_line (rustTrim l) = none →
      (serialIteration st cmds (some l)).1 = st) := by
  constructor
  · intro st cmds; rfl
  · intro st cmds l h
    simp only [serialIteration, serialIterState, h]

theorem c6_no_mutation_witness :
    (serialIteration Telemetry.default []
      (some (String.data "not telemetry"))).1 = Telemetry.default :=
  c6_no_mutation.2 Telemetry.default [] _ (by decide)

/-- C7: after a write of R, a read returns a value equal to R, and any
number of further reads (no intervening write) still return R; readers get
the record by value (the clone at src/main.rs:52), so the returned copy is
independent of the cell. -/
theorem c7_read_after_write :
    (∀ r st, get_telemetry (storeStep st (StoreOp.write r)) = r) ∧
    (∀ r st ops, (∀ op ∈ ops, op = StoreOp.read) →
      get_telemetry (runStore (storeStep st (StoreOp.write r)) ops) = r) := by
  refine ⟨fun r st => rfl, ?_⟩
  intro r st ops h
  rw [runStore_reads ops h]
  rfl

theorem c7_read_after_write_witness :
    get_telemetry (runStore (storeStep Telemetry.default
      (StoreOp.write exRec)) [StoreOp.read, StoreOp.read]) = exRec :=
  c7_read_after_write.2 exRec Telemetry.default [StoreOp.read, StoreOp.read]
    (by
      intro op hop
      cases hop with
      | head => rfl
      | tail _ h =>
        cases h with
        | head => rfl
        | tail _ h2 => cases h2)

/-- C8: the default record is all-zero with 16 false solenoids, and a failed
device open makes the serial loop exit without ever touching the store, so
the telemetry endpoint keeps returning the default record. -/
theorem c8_default_on_open_failure :
    Telemetry.default =
      { timestamp := 0, armed := false, battery := F32.finite 0,
        arming := F32.finite 0, solenoids := List.replicate 16 false } ∧
    (∀ cloneOk reads st, spawn_serial_loop false cloneOk reads st = st) ∧
    (∀ cloneOk reads,
      get_telemetry (spawn_serial_loop false cloneOk reads Telemetry.default) =
        Telemetry.default) := by
  refine ⟨rfl, fun cloneOk reads st => rfl, fun cloneOk reads => rfl⟩

/-- C9: the parser is total and never panics — the explicit-panic embedding
of `parse_telemetry_line` (every `Vec` indexing modelled as panicking when
unguarded) agrees with the pure parser on every input string, hence every
input yields `some` record or `None` and no input reaches a panic. -/
theorem c9_parse_total : ∀ line : List Char,
    parse_telemetry_lineP line = PResult.ofOption (parse_telemetry_line line) ∧
    (parse_telemetry_lineP line).isPanic = false :=
  fun line => ⟨parse_lineP_eq line, parse_lineP_no_panic line⟩

/-- C10: the wire encoding of solenoid commands is injective on the valid
domain: distinct (channel, state) pairs with channel 1..16 and state 0..1
always submit distinct tokens. -/
theorem c10_token_injective (ch1 st1 ch2 st2 : Nat)
    (h1 : 1 ≤ ch1) (h2 : ch1 ≤ 16) (h3 : st1 ≤ 1)
    (h4 : 1 ≤ ch2) (h5 : ch2 ≤ 16) (h6 : st2 ≤ 1)
    (he : solenoid ch1 st1 = solenoid ch2 st2) : ch1 = ch2 ∧ st1 = st2 :=
  solInjFin ⟨ch1, by omega⟩ ⟨st1, by omega⟩ ⟨ch2, by omega⟩ ⟨st2, by omega⟩
    h1 h4 he

theorem c10_token_injective_witness : (5 : Nat) = 5 ∧ (1 : Nat) = 1 :=
  c10_token_injective 5 1 5 1 (by decide) (by decide) (by decide) (by decide)
    (by decide) (by decide) rfl

end Danube
